import Mathlib

/-!
Verification development for the MCUT frontend layer
(`src/include/mcut/internal/frontend.h`): context lifecycle, dispatch
orchestration and the connected-component output model.

The header defines the data structures (`array_mesh_t`,
`connected_component_t` and its variants, `context_t`) and implements
`context_t::log`; the `*_impl` entry points are only declared there, so
their behaviour is modelled from the specification (each such definition
carries a doc comment starting `Modelled from the spec:`).

Machine integers (`uint32_t`, `uint64_t`, `McFlags`) are embedded as `Nat`;
none of the verified properties exercises arithmetic overflow.  `double`
entries are embedded as the `Nat` holding the 64-bit pattern of the value:
the properties below are about byte counts and byte copying, never about
numeric values of coordinates.
-/

/-- `McFlags` is a 32-bit flag word in the C API; embedded as `Nat`. -/
abbrev McFlags := Nat

/-- Opaque context handle (`McContext`, a pointer in the C API); embedded as `Nat`. -/
abbrev McContext := Nat

/-- Opaque connected-component handle (`McConnectedComponent`); embedded as `Nat`. -/
abbrev McConnectedComponent := Nat

/-- Status codes of the layer, following the spec's error taxonomy
(§7: `InvalidHandle`, `InvalidValue`, `OutOfMemory`, `KernelFailure`),
plus the success code. -/
inductive McResult where
  | Success
  | InvalidHandle
  | InvalidValue
  | OutOfMemory
  | KernelFailure
deriving DecidableEq, Repr

/-- `array_mesh_t` (frontend.h:54-78): flat-array encoding of one output
mesh.  Array fields are the arrays themselves; the `num*` count fields of
the C struct are kept verbatim (the C struct stores them separately from
the heap arrays, default-initialised to 0). -/
structure array_mesh_t where
  pVertices : List Nat := []           -- double entries, 64-bit patterns
  pSeamVertexIndices : List Nat := []  -- uint32_t entries
  pVertexMapIndices : List Nat := []   -- uint32_t entries
  pFaceIndices : List Nat := []        -- uint32_t entries
  pFaceMapIndices : List Nat := []     -- uint32_t entries
  pFaceSizes : List Nat := []          -- uint32_t entries
  pEdges : List Nat := []              -- uint32_t entries
  pFaceAdjFaces : List Nat := []       -- uint32_t entries
  pFaceAdjFacesSizes : List Nat := []  -- uint32_t entries
  pTriangleIndices : List Nat := []    -- uint32_t entries
  numVertices : Nat := 0
  numSeamVertexIndices : Nat := 0
  numFaces : Nat := 0
  numFaceIndices : Nat := 0
  numEdgeIndices : Nat := 0
  numFaceAdjFaceIndices : Nat := 0
  numTriangleIndices : Nat := 0
deriving DecidableEq, Repr

/-- The four connected-component variants of frontend.h:88-107
(`fragment_cc_t`, `patch_cc_t`, `seam_cc_t`, `input_cc_t`) as a tagged
variant over their metadata fields.  The enum-typed metadata values
(`McFragmentLocation`, `McFragmentSealType`, `McPatchLocation`,
`McSeamOrigin`, `McInputOrigin`) are flag words, embedded as `Nat`. -/
inductive cc_kind where
  | fragment (fragmentLocation srcMeshSealType patchLocation : Nat)
  | patch (patchLocation : Nat)
  | seam (origin : Nat)
  | input (origin : Nat)
deriving DecidableEq, Repr

/-- `connected_component_t` (frontend.h:81-85): base data common to all
variants (`McConnectedComponentType type` and the `array_mesh_t`), with the
variant-specific metadata in `kind`. -/
structure connected_component_t where
  kind : cc_kind
  indexArrayMesh : array_mesh_t := {}
deriving DecidableEq, Repr

/-- The `McConnectedComponentType` tag of a component, determined by which
derived struct it is (one distinct flag bit per variant). -/
def connected_component_t.type (cc : connected_component_t) : Nat :=
  match cc.kind with
  | .fragment _ _ _ => 1
  | .patch _ => 2
  | .seam _ => 4
  | .input _ => 8

/-- Record of one invocation of the user's `pfn_mcDebugOutput_CALLBACK`:
the arguments `context_t::log` passes at frontend.h:154. -/
structure DebugCallbackCall where
  callback : Nat       -- identity of the function pointer invoked
  source : Nat         -- McDebugSource
  type : Nat           -- McDebugType
  id : Nat
  severity : Nat       -- McDebugSeverity
  length : Nat         -- message.length()
  message : String     -- message.c_str()
  userParam : Option Nat
deriving DecidableEq, Repr

/-- `context_t` (frontend.h:117-157): state of one context.  Field order,
names and default initialisers follow the C struct.  Function and `void*`
pointers are embedded as `Option Nat` (`none` = `nullptr`, the value is the
pointer's identity).  `ccCounter` is a model-only field: the C code mints
connected-component handles from heap addresses; the model mints them from
this per-context counter so that, as in C, a handle is never reused while
any component of the context is live. -/
structure context_t where
  connected_components : List (McConnectedComponent × connected_component_t) := []
  flags : McFlags := 0
  dispatchFlags : McFlags := 0
  debugCallback : Option Nat := none
  debugCallbackUserParam : Option Nat := none
  debugSource : McFlags := 0
  debugType : McFlags := 0
  debugSeverity : McFlags := 0
  ccCounter : Nat := 0
deriving DecidableEq, Repr

/-- `context_t::log` (frontend.h:147-156).  The body guards only on
`debugCallback != nullptr` and then calls
`(*debugCallback)(source, type, id, severity, message.length(),
message.c_str(), debugCallbackUserParam)`; the three filter masks
`debugSource` / `debugType` / `debugSeverity` are NOT consulted (the
comment at frontend.h:138 records this as a TODO).  The returned value is
the callback invocation performed, `none` when no call is made. -/
def context_t.log (c : context_t) (source : Nat) (type : Nat) (id : Nat)
    (severity : Nat) (message : String) : Option DebugCallbackCall :=
  match c.debugCallback with
  | some cb =>
      some { callback := cb, source := source, type := type, id := id,
             severity := severity, length := message.length,
             message := message, userParam := c.debugCallbackUserParam }
  | none => none

/-- Association-list lookup on `Nat` keys (first match).  The C maps
(`std::map`) have unique keys; the model's insertions keep keys unique. -/
def alist_find (k : Nat) : List (Nat × α) → Option α
  | [] => none
  | (k2, v) :: rest => if k2 = k then some v else alist_find k rest

/-- Remove the entry with key `k`. -/
def alist_erase (k : Nat) (l : List (Nat × α)) : List (Nat × α) :=
  l.filter (fun p => p.1 != k)

/-- Apply `f` to the value stored under key `k` (other entries unchanged). -/
def alist_update (k : Nat) (f : α → α) (l : List (Nat × α)) : List (Nat × α) :=
  l.map (fun p => if p.1 = k then (p.1, f p.2) else p)

/-- The process-wide context registry: `g_contexts` (frontend.h:160) plus a
model-only `nextHandle` counter.  The C code mints `McContext` handles from
heap addresses of the `context_t` allocations; the model mints them from
`nextHandle`, which matches the spec's freshness requirement (§4.1: a fresh
unique handle, never equal to any currently live handle). -/
structure Registry where
  g_contexts : List (McContext × context_t) := []
  nextHandle : Nat := 1
deriving DecidableEq, Repr

/-- The empty registry: no context has been created yet. -/
def Registry.init : Registry := {}

/-- The set of recognised context-creation flag bits.  Modelled from the
spec: the concrete bit values are not under src/; the spec (§4.1) requires
only that some set of recognised bits exists (e.g. a debug bit and a
scheduling-mode bit) and that any unrecognised bit is rejected with
`InvalidValue`.  The model grants bits 0 and 1. -/
def contextFlagsAll : McFlags := 3

/-- Modelled from the spec: `create_context_impl` is declared at
frontend.h:162-163 but its body is not under src/.  Spec §4.1: allocates a
new `context_t` (all fields at their frontend.h:117-157 defaults except the
stored creation flags), assigns a fresh unique handle, returns it through
`pContext`; fails with `InvalidValue` when `flags` holds an unrecognised
bit, leaving the output parameter untouched.  The returned triple is
(status, new registry, final value of `*pContext`), where the caller's
prior value of `*pContext` is passed in. -/
def create_context_impl (r : Registry) (flags : McFlags)
    (pContext : Option McContext) : McResult × Registry × Option McContext :=
  if flags &&& contextFlagsAll = flags then
    (.Success,
     { g_contexts := (r.nextHandle, { flags := flags }) :: r.g_contexts,
       nextHandle := r.nextHandle + 1 },
     some r.nextHandle)
  else (.InvalidValue, r, pContext)

/-- Modelled from the spec: `release_context_impl` is declared at
frontend.h:218-219 but its body is not under src/.  Spec §4.1: fails with
`InvalidHandle` if the handle is unknown; otherwise destroys every owned
connected component together with the context and removes the entry, after
which the handle is invalid. -/
def release_context_impl (r : Registry) (h : McContext) : McResult × Registry :=
  match alist_find h r.g_contexts with
  | none => (.InvalidHandle, r)
  | some _ => (.Success, { r with g_contexts := alist_erase h r.g_contexts })

/-- Modelled from the spec: `debug_message_callback_impl` is declared at
frontend.h:165-168 but its body is not under src/.  Spec §4.2: replaces the
context's callback and user parameter; `none` disables output. -/
def debug_message_callback_impl (r : Registry) (h : McContext)
    (cb userParam : Option Nat) : McResult × Registry :=
  match alist_find h r.g_contexts with
  | none => (.InvalidHandle, r)
  | some _ =>
      (.Success,
       { r with g_contexts := (alist_update h
           (fun c => { c with debugCallback := cb,
                              debugCallbackUserParam := userParam })
           r.g_contexts) })

/-- Set (`enabled = true`) or clear the bits `v` in `mask`.  Clearing is
`mask - (mask &&& v)`: the bits of `mask &&& v` are a sub-pattern of
`mask`, so the subtraction removes exactly those bits. -/
def setMaskBits (mask v : Nat) (enabled : Bool) : Nat :=
  if enabled then mask ||| v else mask - (mask &&& v)

/-- Modelled from the spec: `debug_message_control_impl` is declared at
frontend.h:170-175 but its body is not under src/.  Spec §4.2: updates
which categories are forwarded, i.e. sets or clears the given bits in the
three filter masks. -/
def debug_message_control_impl (r : Registry) (h : McContext)
    (source type severity : McFlags) (enabled : Bool) : McResult × Registry :=
  match alist_find h r.g_contexts with
  | none => (.InvalidHandle, r)
  | some _ =>
      (.Success,
       { r with g_contexts := (alist_update h
           (fun c => { c with
               debugSource := setMaskBits c.debugSource source enabled,
               debugType := setMaskBits c.debugType type enabled,
               debugSeverity := setMaskBits c.debugSeverity severity enabled })
           r.g_contexts) })

/-- One input mesh as passed to `dispatch_impl` (frontend.h:184-196): the
quintuple (vertex buffer, face-index buffer, face-size buffer, vertex
count, face count).  Vertex entries are 64-bit double patterns. -/
structure mesh_desc_t where
  vertices : List Nat := []
  faceIndices : List Nat := []
  faceSizes : List Nat := []
  numVertices : Nat := 0
  numFaces : Nat := 0
deriving DecidableEq, Repr

/-- Modelled from the spec (§4.3): the structural-sanity test `dispatch`
applies to each input mesh before invoking the kernel: nonzero vertex and
face counts, every face-size entry at least 3, the face-size entries
summing to the face-index buffer's implied length, and every face index in
`[0, numVertices)`. -/
def mesh_desc_ok (m : mesh_desc_t) : Bool :=
  m.numVertices != 0 && m.numFaces != 0 &&
  m.faceSizes.all (fun s => decide (3 ≤ s)) &&
  (m.faceSizes.foldr (· + ·) 0 == m.faceIndices.length) &&
  m.faceIndices.all (fun i => decide (i < m.numVertices))

/-- The geometric kernel, an external collaborator (spec §1): consumes the
two meshes and the dispatch flags and produces the connected components of
one dispatch generation, or a non-fatal failure (`KernelFailure`,
`OutOfMemory`).  Theorems quantify over it. -/
abbrev kernel_t :=
  mesh_desc_t → mesh_desc_t → McFlags → Except McResult (List connected_component_t)

/-- Handles for the components of one dispatch generation, minted from the
context's counter: `ctr, ctr + 1, ...`. -/
def insert_ccs (ctr : Nat) : List connected_component_t →
    List (Nat × connected_component_t)
  | [] => []
  | cc :: rest => (ctr, cc) :: insert_ccs (ctr + 1) rest

/-- Modelled from the spec: `dispatch_impl` is declared at
frontend.h:184-196 but its body is not under src/.  Spec §4.3: fails with
`InvalidHandle` for an unknown context; checks the structural preconditions
on both meshes before invoking the kernel and reports any violation via
`InvalidValue`, leaving the component store untouched; otherwise invokes
the kernel, and on kernel success atomically replaces the context's
components (discard-by-default policy) with the kernel output under freshly
minted handles, storing the dispatch flags; a kernel failure leaves the
store in its pre-failure state. -/
def dispatch_impl (kernel : kernel_t) (r : Registry) (h : McContext)
    (flags : McFlags) (src cut : mesh_desc_t) : McResult × Registry :=
  match alist_find h r.g_contexts with
  | none => (.InvalidHandle, r)
  | some _ =>
      if mesh_desc_ok src && mesh_desc_ok cut then
        match kernel src cut flags with
        | .error e => (e, r)
        | .ok out =>
            (.Success,
             { r with g_contexts := (alist_update h
                 (fun c => { c with
                     dispatchFlags := flags,
                     connected_components := insert_ccs c.ccCounter out,
                     ccCounter := c.ccCounter + out.length })
                 r.g_contexts) })
      else (.InvalidValue, r)

/-- Modelled from the spec: `get_connected_components_impl` is declared at
frontend.h:198-203 but its body is not under src/.  Spec §4.4: lists the
handles of the components whose type tag matches the filter (the "any"
filter is the union of all four type bits); with a null output array only
the count is reported; with an array, at most `numEntries` handles are
written.  Returns (status, registry, final `pConnComps` contents, final
`*numConnComps`). -/
def get_connected_components_impl (r : Registry) (h : McContext)
    (connectedComponentType : Nat) (numEntries : Nat)
    (pConnComps : Option (List Nat)) (numConnComps : Option Nat) :
    McResult × Registry × Option (List Nat) × Option Nat :=
  match alist_find h r.g_contexts with
  | none => (.InvalidHandle, r, pConnComps, numConnComps)
  | some ctx =>
      let matching := (ctx.connected_components.filter
          (fun p => connectedComponentType &&& p.2.type != 0)).map (fun p => p.1)
      match pConnComps with
      | none => (.Success, r, none, some matching.length)
      | some buf =>
          let k := min matching.length numEntries
          (.Success, r, some (matching.take k ++ buf.drop k), some matching.length)

/-- The ten logical arrays of an `array_mesh_t` that a field selector of
`get_connected_component_data_impl` can name (spec §4.4). -/
inductive field_selector where
  | vertices
  | seamVertexIndices
  | vertexMap
  | faceIndices
  | faceMap
  | faceSizes
  | edges
  | faceAdjFaces
  | faceAdjFacesSizes
  | triangleIndices
deriving DecidableEq, Repr

/-- Little-endian byte expansion of a `uint32_t` value. -/
def bytesOfU32 (v : Nat) : List Nat :=
  [v % 256, v / 256 % 256, v / 65536 % 256, v / 16777216 % 256]

/-- Little-endian byte expansion of a 64-bit (double) pattern. -/
def bytesOfU64 (v : Nat) : List Nat :=
  bytesOfU32 (v % 4294967296) ++ bytesOfU32 (v / 4294967296)

/-- Byte image of a `uint32_t` array. -/
def serializeU32 (l : List Nat) : List Nat := (l.map bytesOfU32).flatten

/-- Byte image of a double array. -/
def serializeU64 (l : List Nat) : List Nat := (l.map bytesOfU64).flatten

/-- The byte image of the logical array a field selector names: what
`get_connected_component_data_impl` copies from and whose length is the
required byte count. -/
def mesh_bytes (m : array_mesh_t) : field_selector → List Nat
  | .vertices => serializeU64 m.pVertices
  | .seamVertexIndices => serializeU32 m.pSeamVertexIndices
  | .vertexMap => serializeU32 m.pVertexMapIndices
  | .faceIndices => serializeU32 m.pFaceIndices
  | .faceMap => serializeU32 m.pFaceMapIndices
  | .faceSizes => serializeU32 m.pFaceSizes
  | .edges => serializeU32 m.pEdges
  | .faceAdjFaces => serializeU32 m.pFaceAdjFaces
  | .faceAdjFacesSizes => serializeU32 m.pFaceAdjFacesSizes
  | .triangleIndices => serializeU32 m.pTriangleIndices

/-- Modelled from the spec: the `MC_CONNECTED_COMPONENT_DATA_*` flag values
are not under src/; the model grants one distinct bit per logical array and
rejects everything else (spec §4.4: `InvalidValue` for an unrecognised
field selector). -/
def decodeField (flags : Nat) : Option field_selector :=
  if flags = 1 then some .vertices
  else if flags = 2 then some .seamVertexIndices
  else if flags = 4 then some .vertexMap
  else if flags = 8 then some .faceIndices
  else if flags = 16 then some .faceMap
  else if flags = 32 then some .faceSizes
  else if flags = 64 then some .edges
  else if flags = 128 then some .faceAdjFaces
  else if flags = 256 then some .faceAdjFacesSizes
  else if flags = 512 then some .triangleIndices
  else none

/-- Modelled from the spec: `get_connected_component_data_impl` is declared
at frontend.h:205-211 but its body is not under src/.  Spec §4.4 contract:
`InvalidHandle` if either handle is unknown or the component is foreign to
the context; `InvalidValue` for an unrecognised field selector, or when the
capacity is nonzero but the buffer pointer is null; a null buffer (with
zero capacity) reports only the required byte count; otherwise exactly
`min(required, bytes)` bytes are copied into the buffer (the rest of the
buffer is untouched) and the true required size is reported.  Returns
(status, registry, final buffer contents, final `*pNumBytes`), the caller's
prior values being passed in. -/
def get_connected_component_data_impl (r : Registry) (h : McContext)
    (connCompId : McConnectedComponent) (flags : Nat) (bytes : Nat)
    (pMem : Option (List Nat)) (pNumBytes : Option Nat) :
    McResult × Registry × Option (List Nat) × Option Nat :=
  match alist_find h r.g_contexts with
  | none => (.InvalidHandle, r, pMem, pNumBytes)
  | some ctx =>
      match alist_find connCompId ctx.connected_components with
      | none => (.InvalidHandle, r, pMem, pNumBytes)
      | some cc =>
          match decodeField flags with
          | none => (.InvalidValue, r, pMem, pNumBytes)
          | some sel =>
              let data := mesh_bytes cc.indexArrayMesh sel
              match pMem with
              | none =>
                  if bytes != 0 then (.InvalidValue, r, pMem, pNumBytes)
                  else (.Success, r, none, some data.length)
              | some buf =>
                  let k := min data.length bytes
                  (.Success, r, some (data.take k ++ buf.drop k), some data.length)

/-- Modelled from the spec: `release_connected_components_impl` is declared
at frontend.h:213-216 but its body is not under src/.  Spec §4.4: removes
and destroys each named component; fails with `InvalidHandle` if any handle
of the batch is unknown or foreign to the context, in which case no
component of the batch is destroyed (all-or-nothing). -/
def release_connected_components_impl (r : Registry) (h : McContext)
    (pConnComps : List McConnectedComponent) : McResult × Registry :=
  match alist_find h r.g_contexts with
  | none => (.InvalidHandle, r)
  | some ctx =>
      if pConnComps.all (fun c => (alist_find c ctx.connected_components).isSome) then
        (.Success,
         { r with g_contexts := (alist_update h
             (fun c => { c with connected_components :=
                 (c.connected_components.filter
                   (fun p => !(pConnComps.contains p.1))) })
             r.g_contexts) })
      else (.InvalidHandle, r)

/-- One call to a public entry point, with its arguments (output-parameter
prior values included where the call has output parameters). -/
inductive ApiOp where
  | createContext (flags : McFlags)
  | releaseContext (h : McContext)
  | setDebugCallback (h : McContext) (cb userParam : Option Nat)
  | setDebugControl (h : McContext) (source type severity : McFlags) (enabled : Bool)
  | dispatch (h : McContext) (flags : McFlags) (src cut : mesh_desc_t)
  | getComponents (h : McContext) (typeFilter numEntries : Nat)
      (pConnComps : Option (List Nat)) (numConnComps : Option Nat)
  | getData (h : McContext) (c : McConnectedComponent) (flags bytes : Nat)
      (pMem : Option (List Nat)) (pNumBytes : Option Nat)
  | releaseComponents (h : McContext) (ccs : List McConnectedComponent)
deriving DecidableEq, Repr

/-- Execute one entry point, returning its status and the new registry. -/
def runOp (kernel : kernel_t) : ApiOp → Registry → McResult × Registry
  | .createContext flags, r =>
      ((create_context_impl r flags none).1, (create_context_impl r flags none).2.1)
  | .releaseContext h, r => release_context_impl r h
  | .setDebugCallback h cb up, r => debug_message_callback_impl r h cb up
  | .setDebugControl h s t sev e, r => debug_message_control_impl r h s t sev e
  | .dispatch h flags src cut, r => dispatch_impl kernel r h flags src cut
  | .getComponents h tf n pc nc, r =>
      ((get_connected_components_impl r h tf n pc nc).1,
       (get_connected_components_impl r h tf n pc nc).2.1)
  | .getData h c f b pm pn, r =>
      ((get_connected_component_data_impl r h c f b pm pn).1,
       (get_connected_component_data_impl r h c f b pm pn).2.1)
  | .releaseComponents h ccs, r => release_connected_components_impl r h ccs

/-- Registry after one entry point. -/
def stepOp (kernel : kernel_t) (op : ApiOp) (r : Registry) : Registry :=
  (runOp kernel op r).2

/-- Registry after a sequence of entry points. -/
def runOps (kernel : kernel_t) : List ApiOp → Registry → Registry
  | [], r => r
  | op :: ops, r => runOps kernel ops (stepOp kernel op r)

/-- The context handle an operation is invoked on (`none` for creation). -/
def ApiOp.target : ApiOp → Option McContext
  | .createContext _ => none
  | .releaseContext h => some h
  | .setDebugCallback h _ _ => some h
  | .setDebugControl h _ _ _ _ => some h
  | .dispatch h _ _ _ => some h
  | .getComponents h _ _ _ _ => some h
  | .getData h _ _ _ _ _ => some h
  | .releaseComponents h _ => some h

/-- Registry well-formedness: every live context handle is below the
freshness counter.  Holds for every registry reachable from
`Registry.init`. -/
def RegWF (r : Registry) : Prop :=
  ∀ h ctx, alist_find h r.g_contexts = some ctx → h < r.nextHandle

/-- Context well-formedness: every live component handle is below the
context's minting counter. -/
def ctxWF (c : context_t) : Prop :=
  ∀ k cc, alist_find k c.connected_components = some cc → k < c.ccCounter

/-- Every live context of the registry is well-formed. -/
def RegInv (r : Registry) : Prop :=
  ∀ h ctx, alist_find h r.g_contexts = some ctx → ctxWF ctx

/-- Joint reachability invariant of the registry. -/
def GoodReg (r : Registry) : Prop := RegWF r ∧ RegInv r

/-- A context handle that has been released (or never issued): unknown to
the registry and below the freshness counter, so no future creation can
mint it again. -/
def handleDead (r : Registry) (h : McContext) : Prop :=
  alist_find h r.g_contexts = none ∧ h < r.nextHandle

/-- A component handle that can never again denote a (new) component of
context `h`: either the context itself is dead, or the component handle is
unknown to it and below its minting counter. -/
def ccDead (r : Registry) (h c : Nat) : Prop :=
  handleDead r h ∨
  ∃ ctx, alist_find h r.g_contexts = some ctx ∧
    alist_find c ctx.connected_components = none ∧ c < ctx.ccCounter

/-- A kernel that produces no components; used to instantiate theorems at
concrete inputs. -/
def kernelNone : kernel_t := fun _ _ _ => .ok []

/-- Concrete output mesh used to instantiate theorems at concrete inputs. -/
def sampleMesh : array_mesh_t :=
  { pVertices := [17], pFaceSizes := [3], pFaceIndices := [0, 1, 2],
    numVertices := 1, numFaces := 1, numFaceIndices := 3 }

/-- Concrete fragment component. -/
def sampleCC : connected_component_t :=
  { kind := .fragment 1 2 3, indexArrayMesh := sampleMesh }

/-- Concrete seam component. -/
def sampleCC2 : connected_component_t := { kind := .seam 1 }

/-- Concrete context owning `sampleCC` (handle 0) and `sampleCC2`
(handle 1). -/
def sampleCtx : context_t :=
  { connected_components := [(0, sampleCC), (1, sampleCC2)], ccCounter := 2 }

/-- Concrete registry owning `sampleCtx` under context handle 1. -/
def sampleReg : Registry :=
  { g_contexts := [(1, sampleCtx)], nextHandle := 2 }

/-- A structurally valid input mesh (one triangle). -/
def sampleGoodMesh : mesh_desc_t :=
  { vertices := [0, 0, 0], faceIndices := [0, 1, 2], faceSizes := [3],
    numVertices := 3, numFaces := 1 }

/-- A degenerate input mesh: its single face-size entry is 2. -/
def sampleBadMesh : mesh_desc_t :=
  { vertices := [0, 0, 0], faceIndices := [0, 1], faceSizes := [2],
    numVertices := 3, numFaces := 1 }

/-- `sampleCtx` after releasing the component batch `[1]`: component 0
survives unchanged, the minting counter stays at 2. -/
def ctxAfterRelease : context_t :=
  { connected_components := [(0, sampleCC)], ccCounter := 2 }

theorem alist_find_nil (k : Nat) : alist_find k ([] : List (Nat × α)) = none := rfl

theorem alist_find_cons (k k2 : Nat) (v : α) (l : List (Nat × α)) :
    alist_find k ((k2, v) :: l) = if k2 = k then some v else alist_find k l := rfl

theorem alist_find_update (k h : Nat) (f : α → α) (l : List (Nat × α)) :
    alist_find h (alist_update k f l) =
      if k = h then (alist_find h l).map f else alist_find h l := by
  induction l with
  | nil =>
      rw [alist_update]
      simp [alist_find_nil]
  | cons p rest ih =>
      obtain ⟨k2, v⟩ := p
      have hstep : alist_update k f ((k2, v) :: rest) =
          (if k2 = k then (k2, f v) else (k2, v)) :: alist_update k f rest := by
        rw [alist_update, List.map_cons]
        rfl
      rw [hstep]
      by_cases h1 : k2 = k
      · subst h1
        by_cases h2 : k2 = h
        · subst h2
          simp [alist_find_cons]
        · simp [alist_find_cons, h2, ih]
      · by_cases h2 : k2 = h
        · subst h2
          have hk : ¬ k = k2 := fun he => h1 he.symm
          simp [alist_find_cons, h1, hk]
        · simp [alist_find_cons, h1, h2, ih]

theorem alist_find_filter_key (q : Nat → Bool) (c : Nat) (l : List (Nat × α)) :
    alist_find c (l.filter (fun p => q p.1)) =
      if q c then alist_find c l else none := by
  induction l with
  | nil => simp [alist_find_nil]
  | cons p rest ih =>
      obtain ⟨k2, v⟩ := p
      by_cases h1 : q k2
      · by_cases h2 : k2 = c
        · subst h2
          simp [List.filter, h1, alist_find_cons, ih]
        · simp [List.filter, h1, alist_find_cons, h2, ih]
      · by_cases h2 : k2 = c
        · subst h2
          simp [List.filter, h1, alist_find_cons, ih]
        · simp [List.filter, h1, alist_find_cons, h2, ih]

theorem alist_find_erase (k h : Nat) (l : List (Nat × α)) :
    alist_find h (alist_erase k l) = if k = h then none else alist_find h l := by
  have hq := alist_find_filter_key (fun x => x != k) h l
  by_cases he : k = h
  · subst he
    simpa using hq
  · have : (h != k) = true := by
      simp [bne]
      exact fun hc => he hc.symm
    rw [alist_erase, hq, this]
    simp [he]

theorem insert_ccs_find_none (out : List connected_component_t) :
    ∀ ctr k, k < ctr → alist_find k (insert_ccs ctr out) = none := by
  induction out with
  | nil => intro ctr k _; rfl
  | cons cc rest ih =>
      intro ctr k hk
      have hne : ¬ ctr = k := fun he => Nat.lt_irrefl k (he ▸ hk)
      simp [insert_ccs, alist_find_cons, hne]
      exact ih (ctr + 1) k (Nat.lt_succ_of_lt hk)

theorem insert_ccs_find_bound (out : List connected_component_t) :
    ∀ ctr k cc, alist_find k (insert_ccs ctr out) = some cc →
      k < ctr + out.length := by
  induction out with
  | nil => intro ctr k cc hfind; simp [insert_ccs, alist_find_nil] at hfind
  | cons c2 rest ih =>
      intro ctr k cc hfind
      rw [insert_ccs, alist_find_cons] at hfind
      by_cases he : ctr = k
      · subst he
        have hlen : (c2 :: rest).length = rest.length + 1 := rfl
        omega
      · rw [if_neg he] at hfind
        have hih := ih (ctr + 1) k cc hfind
        have hlen : (c2 :: rest).length = rest.length + 1 := rfl
        omega

/-- Claim C1 (evidence of the code bug): on a context whose debug callback
is registered but whose three filter masks are all zero — so that no
message category is permitted — `context_t::log` still forwards the
message to the callback, because the body at frontend.h:153-155 tests only
`debugCallback != nullptr` and never consults `debugSource`, `debugType`
or `debugSeverity` (the comment at frontend.h:138 records the missing
filtering as a TODO). -/
theorem C1_log_ignores_filter_masks :
    (({ debugCallback := some 7 } : context_t).debugSource = 0) ∧
    (({ debugCallback := some 7 } : context_t).debugType = 0) ∧
    (({ debugCallback := some 7 } : context_t).debugSeverity = 0) ∧
    ({ debugCallback := some 7 } : context_t).log 1 2 0 4 "x" =
      some { callback := 7, source := 1, type := 2, id := 0, severity := 4,
             length := 1, message := "x", userParam := none } := by
  refine ⟨rfl, rfl, rfl, ?_⟩
  rfl

/-- Claim C9: whenever `context_t::log` (frontend.h:147-156) invokes the
registered debug callback, it passes exactly the message's own length as
the length argument, the message's character data, and the `userParam`
pointer stored in the context (`debugCallbackUserParam`). -/
theorem C9_log_callback_arguments (c : context_t) (source type id severity : Nat)
    (message : String) (hcb : c.debugCallback ≠ none) :
    ∃ cb, c.debugCallback = some cb ∧
      c.log source type id severity message =
        some { callback := cb, source := source, type := type, id := id,
               severity := severity, length := message.length,
               message := message, userParam := c.debugCallbackUserParam } := by
  cases hc : c.debugCallback with
  | none => exact absurd hc hcb
  | some cb => exact ⟨cb, rfl, by rw [context_t.log, hc]⟩

/-- Witness for C9 at a concrete context and message. -/
theorem C9_log_callback_arguments_witness :
    (({ debugCallback := some 7, debugCallbackUserParam := some 9 } :
        context_t).debugCallback ≠ none) ∧
    ∃ cb, ({ debugCallback := some 7, debugCallbackUserParam := some 9 } :
        context_t).debugCallback = some cb ∧
      ({ debugCallback := some 7, debugCallbackUserParam := some 9 } :
        context_t).log 1 2 3 4 "ab" =
        some { callback := cb, source := 1, type := 2, id := 3, severity := 4,
               length := "ab".length, message := "ab", userParam := some 9 } :=
  ⟨by decide,
   C9_log_callback_arguments
     { debugCallback := some 7, debugCallbackUserParam := some 9 } 1 2 3 4 "ab"
     (by decide)⟩

/-- Claim C10: a freshly constructed `context_t` (all default member
initialisers of frontend.h:117-157) is fully inert: null debug callback
and user parameter, zero filter masks, zero context and dispatch flags, an
empty component map; consequently `log` drops every message, and a
component listing on such a context reports zero components. -/
theorem C10_fresh_context_inert :
    (({} : context_t).debugCallback = none) ∧
    (({} : context_t).debugCallbackUserParam = none) ∧
    (({} : context_t).debugSource = 0) ∧
    (({} : context_t).debugType = 0) ∧
    (({} : context_t).debugSeverity = 0) ∧
    (({} : context_t).flags = 0) ∧
    (({} : context_t).dispatchFlags = 0) ∧
    (({} : context_t).connected_components = []) ∧
    (∀ source type id severity message,
      ({} : context_t).log source type id severity message = none) ∧
    (∀ h typeFilter,
      (get_connected_components_impl
        { g_contexts := [(h, {})], nextHandle := h + 1 } h typeFilter
        0 none none).2.2.2 = some 0) := by
  refine ⟨rfl, rfl, rfl, rfl, rfl, rfl, rfl, rfl, ?_, ?_⟩
  · intro source type id severity message; rfl
  · intro h typeFilter
    simp [get_connected_components_impl, alist_find_cons]

/-- Claim C8: `get_connected_component_data_impl` is read-only on the
registry (the component store is never modified by a query), hence two
calls with identical arguments — the second running on the state left by
the first — return identical final buffer contents and report the same
required size. -/
theorem C8_get_data_deterministic (r : Registry) (h : McContext)
    (c : McConnectedComponent) (flags bytes : Nat)
    (pMem : Option (List Nat)) (pNumBytes : Option Nat) :
    (get_connected_component_data_impl r h c flags bytes pMem pNumBytes).2.1 = r ∧
    get_connected_component_data_impl
        ((get_connected_component_data_impl r h c flags bytes pMem pNumBytes).2.1)
        h c flags bytes pMem pNumBytes =
      get_connected_component_data_impl r h c flags bytes pMem pNumBytes := by
  have hro :
      (get_connected_component_data_impl r h c flags bytes pMem pNumBytes).2.1 = r := by
    unfold get_connected_component_data_impl
    repeat' split
    all_goals rfl
  exact ⟨hro, by rw [hro]⟩

theorem alist_find_filter_contains (ccs : List Nat) (c : Nat)
    (l : List (Nat × α)) :
    alist_find c (l.filter (fun p => !(ccs.contains p.1))) =
      if ccs.contains c then none else alist_find c l := by
  have hq := alist_find_filter_key (fun x => !(ccs.contains x)) c l
  rw [hq]
  by_cases h1 : ccs.contains c
  · simp [h1]
  · simp [h1]

/-- Claim C2 counterexample: the claim asserts that whenever the
destination buffer is null only the required byte size is reported; but a
null buffer with nonzero capacity is a malformed call (spec §4.4), which
fails with `InvalidValue` and reports nothing — here the required size is
4 bytes, yet `*pNumBytes` is left untouched. -/
theorem C2_null_buffer_nonzero_capacity_cex :
    get_connected_component_data_impl sampleReg 1 0 32 1 none none =
      (.InvalidValue, sampleReg, none, none) ∧
    (mesh_bytes sampleCC.indexArrayMesh .faceSizes).length = 4 := by
  constructor
  · rfl
  · rfl

/-- Claim C2 (amended): for a valid context, a component of that context
and a recognised field selector: a null destination buffer with zero
capacity reports only the required byte size and copies nothing; a null
buffer with nonzero capacity fails with `InvalidValue`, all outputs left
untouched; a non-null buffer receives exactly `min(required, capacity)`
bytes — the remainder of the buffer untouched — while the true required
size is still reported, so the caller can detect truncation and no write
ever exceeds the given capacity. -/
theorem C2_get_data_buffer_contract (r : Registry) (h : McContext)
    (c : McConnectedComponent) (flags bytes : Nat) (pNumBytes : Option Nat)
    (ctx : context_t) (cc : connected_component_t) (sel : field_selector)
    (hctx : alist_find h r.g_contexts = some ctx)
    (hcc : alist_find c ctx.connected_components = some cc)
    (hsel : decodeField flags = some sel) :
    (bytes = 0 →
      get_connected_component_data_impl r h c flags bytes none pNumBytes =
        (.Success, r, none, some (mesh_bytes cc.indexArrayMesh sel).length)) ∧
    (bytes ≠ 0 →
      get_connected_component_data_impl r h c flags bytes none pNumBytes =
        (.InvalidValue, r, none, pNumBytes)) ∧
    (∀ buf : List Nat,
      get_connected_component_data_impl r h c flags bytes (some buf) pNumBytes =
        (.Success, r,
         some ((mesh_bytes cc.indexArrayMesh sel).take
                 (min (mesh_bytes cc.indexArrayMesh sel).length bytes) ++
               buf.drop (min (mesh_bytes cc.indexArrayMesh sel).length bytes)),
         some (mesh_bytes cc.indexArrayMesh sel).length) ∧
      ((mesh_bytes cc.indexArrayMesh sel).take
          (min (mesh_bytes cc.indexArrayMesh sel).length bytes)).length =
        min (mesh_bytes cc.indexArrayMesh sel).length bytes ∧
      min (mesh_bytes cc.indexArrayMesh sel).length bytes ≤ bytes) := by
  refine ⟨?_, ?_, ?_⟩
  · intro hb
    subst hb
    simp [get_connected_component_data_impl, hctx, hcc, hsel]
  · intro hb
    simp [get_connected_component_data_impl, hctx, hcc, hsel, hb]
  · intro buf
    refine ⟨?_, ?_, ?_⟩
    · simp [get_connected_component_data_impl, hctx, hcc, hsel]
    · rw [List.length_take]
      omega
    · omega

/-- Witness for the amended C2 on `sampleReg`: field selector 32 (face
sizes, 4 required bytes), capacity 2, prior buffer `[9, 9, 9]`: exactly 2
bytes are copied, the third buffer byte survives, and the true size 4 is
reported. -/
theorem C2_get_data_buffer_contract_witness :
    get_connected_component_data_impl sampleReg 1 0 32 2 (some [9, 9, 9]) none =
      (.Success, sampleReg, some [3, 0, 9], some 4) := by
  have hm := (C2_get_data_buffer_contract sampleReg 1 0 32 2 none sampleCtx
      sampleCC field_selector.faceSizes (by decide) (by decide) (by decide)).2.2
      [9, 9, 9]
  rw [hm.1]
  decide

/-- Claim C3: `release_connected_components_impl` is all-or-nothing: if
any handle of the batch is unknown to the context (which covers handles
belonging to a different context), the call fails with `InvalidHandle` and
the registry — in particular the context's component store — is completely
unchanged; otherwise the call succeeds, every named component is removed
and destroyed, and the components outside the batch survive unchanged. -/
theorem C3_release_ccs_all_or_nothing (r : Registry) (h : McContext)
    (ccs : List McConnectedComponent) (ctx : context_t)
    (hctx : alist_find h r.g_contexts = some ctx) :
    ((∃ c ∈ ccs, alist_find c ctx.connected_components = none) →
        release_connected_components_impl r h ccs = (.InvalidHandle, r)) ∧
    ((∀ c ∈ ccs, (alist_find c ctx.connected_components).isSome) →
        (release_connected_components_impl r h ccs).1 = .Success ∧
        ∃ ctx2, alist_find h
            (release_connected_components_impl r h ccs).2.g_contexts = some ctx2 ∧
          (∀ c ∈ ccs, alist_find c ctx2.connected_components = none) ∧
          (∀ c, c ∉ ccs →
            alist_find c ctx2.connected_components =
              alist_find c ctx.connected_components)) := by
  constructor
  · rintro ⟨c, hc, hfind⟩
    have hall : ¬ (ccs.all
        (fun c => (alist_find c ctx.connected_components).isSome) = true) := by
      intro hA
      rw [List.all_eq_true] at hA
      have hsome := hA c hc
      rw [hfind] at hsome
      simp at hsome
    simp only [release_connected_components_impl, hctx]
    rw [if_neg hall]
  · intro hall
    have hA : ccs.all
        (fun c => (alist_find c ctx.connected_components).isSome) = true := by
      rw [List.all_eq_true]
      intro c hc
      exact hall c hc
    have hres : release_connected_components_impl r h ccs =
        (.Success, { r with g_contexts := (alist_update h
            (fun c2 => { c2 with connected_components :=
                (c2.connected_components.filter
                  (fun p => !(ccs.contains p.1))) }) r.g_contexts) }) := by
      simp only [release_connected_components_impl, hctx]
      rw [if_pos hA]
    rw [hres]
    refine ⟨rfl, ?_⟩
    rw [alist_find_update]
    simp only [if_pos rfl]
    rw [hctx]
    refine ⟨_, rfl, ?_, ?_⟩
    · intro c hc
      rw [alist_find_filter_contains]
      rw [if_pos (List.elem_eq_true_of_mem hc)]
    · intro c hc
      rw [alist_find_filter_contains]
      rw [if_neg ?_]
      intro hcon
      exact hc (List.mem_of_elem_eq_true hcon)

/-- Witness for C3 on `sampleReg`: the batch `[0, 5]` contains the unknown
handle 5, so the call fails and the registry is unchanged; the batch `[0]`
is fully known, so it succeeds and removes component 0 while component 1
survives. -/
theorem C3_release_ccs_all_or_nothing_witness :
    release_connected_components_impl sampleReg 1 [0, 5] =
      (.InvalidHandle, sampleReg) ∧
    (release_connected_components_impl sampleReg 1 [0]).1 = .Success := by
  have hx := C3_release_ccs_all_or_nothing sampleReg 1 [0, 5] sampleCtx (by decide)
  have hy := C3_release_ccs_all_or_nothing sampleReg 1 [0] sampleCtx (by decide)
  refine ⟨hx.1 ⟨5, by decide, by decide⟩, (hy.2 ?_).1⟩
  intro c hc
  fin_cases hc
  decide

theorem mesh_desc_ok_iff (m : mesh_desc_t) :
    mesh_desc_ok m = true ↔
      (m.numVertices ≠ 0 ∧ m.numFaces ≠ 0 ∧ (∀ s ∈ m.faceSizes, 3 ≤ s) ∧
       m.faceSizes.foldr (· + ·) 0 = m.faceIndices.length ∧
       ∀ i ∈ m.faceIndices, i < m.numVertices) := by
  unfold mesh_desc_ok
  simp [List.all_eq_true, and_assoc]

/-- Claim C4: `dispatch_impl` checks the input-mesh preconditions (nonzero
vertex and face counts for both meshes, every face-size entry at least 3,
face sizes summing to the face-index buffer's implied length, every face
index within `[0, vertexCount)`) before the kernel is invoked — the
conclusion holds identically for every kernel, so the kernel is never
consulted — reports any violation via `InvalidValue`, and returns the
registry unchanged, leaving any pre-existing connected components of the
context untouched. -/
theorem C4_dispatch_validates_input (kernel : kernel_t) (r : Registry)
    (h : McContext) (flags : McFlags) (src cut : mesh_desc_t) (ctx : context_t)
    (hctx : alist_find h r.g_contexts = some ctx)
    (hbad : ¬ ((src.numVertices ≠ 0 ∧ src.numFaces ≠ 0 ∧
          (∀ s ∈ src.faceSizes, 3 ≤ s) ∧
          src.faceSizes.foldr (· + ·) 0 = src.faceIndices.length ∧
          (∀ i ∈ src.faceIndices, i < src.numVertices)) ∧
        (cut.numVertices ≠ 0 ∧ cut.numFaces ≠ 0 ∧
          (∀ s ∈ cut.faceSizes, 3 ≤ s) ∧
          cut.faceSizes.foldr (· + ·) 0 = cut.faceIndices.length ∧
          (∀ i ∈ cut.faceIndices, i < cut.numVertices)))) :
    dispatch_impl kernel r h flags src cut = (.InvalidValue, r) := by
  have hb : ¬ ((mesh_desc_ok src && mesh_desc_ok cut) = true) := by
    intro hT
    rw [Bool.and_eq_true] at hT
    exact hbad ⟨(mesh_desc_ok_iff src).mp hT.1, (mesh_desc_ok_iff cut).mp hT.2⟩
  simp only [dispatch_impl, hctx]
  rw [if_neg hb]

/-- Witness for C4: dispatching `sampleBadMesh` (face-size entry 2) as the
cut mesh on `sampleReg` fails with `InvalidValue` and leaves the registry
— including `sampleCtx`'s two components — untouched, for the concrete
kernel `kernelNone`. -/
theorem C4_dispatch_validates_input_witness :
    dispatch_impl kernelNone sampleReg 1 0 sampleGoodMesh sampleBadMesh =
      (.InvalidValue, sampleReg) :=
  C4_dispatch_validates_input kernelNone sampleReg 1 0 sampleGoodMesh
    sampleBadMesh sampleCtx (by decide) (by decide)

/-- Claim C6: each public entry point returns an `McResult` status code (the
operations are total functions into `McResult × ...`, so no exception ever
escapes), and every entry point that has output parameters leaves them
untouched on any failure: `create_context_impl` (output `*pContext`),
`get_connected_components_impl` (outputs `pConnComps`, `*numConnComps`) and
`get_connected_component_data_impl` (outputs `pMem`, `*pNumBytes`).  The
status is one of five bare codes: diagnostic detail travels only through
the debug-callback channel (`context_t.log`). -/
theorem C6_failure_leaves_outputs_untouched (r : Registry) :
    (∀ flags pContext,
      (create_context_impl r flags pContext).1 ≠ .Success →
        (create_context_impl r flags pContext).2.2 = pContext) ∧
    (∀ h typeFilter numEntries pConnComps numConnComps,
      (get_connected_components_impl r h typeFilter numEntries
          pConnComps numConnComps).1 ≠ .Success →
        (get_connected_components_impl r h typeFilter numEntries
          pConnComps numConnComps).2.2.1 = pConnComps ∧
        (get_connected_components_impl r h typeFilter numEntries
          pConnComps numConnComps).2.2.2 = numConnComps) ∧
    (∀ h c flags bytes pMem pNumBytes,
      (get_connected_component_data_impl r h c flags bytes pMem pNumBytes).1 ≠
          .Success →
        (get_connected_component_data_impl r h c flags bytes
          pMem pNumBytes).2.2.1 = pMem ∧
        (get_connected_component_data_impl r h c flags bytes
          pMem pNumBytes).2.2.2 = pNumBytes) := by
  refine ⟨?_, ?_, ?_⟩
  · intro flags pContext hfail
    by_cases hf : flags &&& contextFlagsAll = flags
    · exact absurd (by simp [create_context_impl, hf]) hfail
    · simp [create_context_impl, hf]
  · intro h typeFilter numEntries pConnComps numConnComps hfail
    cases hc : alist_find h r.g_contexts with
    | none =>
        exact ⟨by simp [get_connected_components_impl, hc],
               by simp [get_connected_components_impl, hc]⟩
    | some ctx =>
        exfalso
        apply hfail
        cases hm : pConnComps with
        | none => simp [get_connected_components_impl, hc, hm]
        | some buf => simp [get_connected_components_impl, hc, hm]
  · intro h c flags bytes pMem pNumBytes hfail
    cases hc : alist_find h r.g_contexts with
    | none =>
        exact ⟨by simp [get_connected_component_data_impl, hc],
               by simp [get_connected_component_data_impl, hc]⟩
    | some ctx =>
        cases hcc : alist_find c ctx.connected_components with
        | none =>
            exact ⟨by simp [get_connected_component_data_impl, hc, hcc],
                   by simp [get_connected_component_data_impl, hc, hcc]⟩
        | some cc =>
            cases hsel : decodeField flags with
            | none =>
                exact ⟨by simp [get_connected_component_data_impl, hc, hcc, hsel],
                       by simp [get_connected_component_data_impl, hc, hcc, hsel]⟩
            | some sel =>
                cases pMem with
                | some buf =>
                    exact absurd (by simp [get_connected_component_data_impl,
                      hc, hcc, hsel]) hfail
                | none =>
                    by_cases hb : bytes = 0
                    · exact absurd (by simp [get_connected_component_data_impl,
                        hc, hcc, hsel, hb]) hfail
                    · exact ⟨by simp [get_connected_component_data_impl,
                        hc, hcc, hsel, hb],
                        by simp [get_connected_component_data_impl,
                        hc, hcc, hsel, hb]⟩

/-- Witness for C6: three concrete failing calls on `sampleReg`
(unrecognised creation flag 4, unknown context handle 99, unrecognised
field selector 3) leave their output parameters at the prior value
`none`. -/
theorem C6_failure_leaves_outputs_untouched_witness :
    (create_context_impl sampleReg 4 none).2.2 = none ∧
    (get_connected_components_impl sampleReg 99 15 0 none none).2.2.2 = none ∧
    (get_connected_component_data_impl sampleReg 1 0 3 0 none none).2.2.2 = none :=
  ⟨(C6_failure_leaves_outputs_untouched sampleReg).1 4 none (by decide),
   ((C6_failure_leaves_outputs_untouched sampleReg).2.1 99 15 0 none none
     (by decide)).2,
   ((C6_failure_leaves_outputs_untouched sampleReg).2.2 1 0 3 0 none none
     (by decide)).2⟩

theorem get_components_registry_ro (r : Registry) (h : McContext)
    (tf n : Nat) (pcc : Option (List Nat)) (pnc : Option Nat) :
    (get_connected_components_impl r h tf n pcc pnc).2.1 = r := by
  unfold get_connected_components_impl
  repeat' split
  all_goals rfl

theorem get_data_registry_ro (r : Registry) (h : McContext)
    (c : McConnectedComponent) (flags bytes : Nat)
    (pMem : Option (List Nat)) (pNumBytes : Option Nat) :
    (get_connected_component_data_impl r h c flags bytes pMem pNumBytes).2.1 = r := by
  unfold get_connected_component_data_impl
  repeat' split
  all_goals rfl

theorem stepOp_shape (kernel : kernel_t) (op : ApiOp) (r : Registry) :
    stepOp kernel op r = r ∨
    (∃ ctx, (stepOp kernel op r =
      { g_contexts := (r.nextHandle, ctx) :: r.g_contexts,
        nextHandle := r.nextHandle + 1 }) ∧
      ctx.connected_components = []) ∨
    (∃ k, stepOp kernel op r =
      { r with g_contexts := alist_erase k r.g_contexts }) ∨
    (∃ k f, (stepOp kernel op r =
      { r with g_contexts := alist_update k f r.g_contexts }) ∧
      (∀ c0, ctxWF c0 → ctxWF (f c0)) ∧
      (∀ c0 : context_t, c0.ccCounter ≤ (f c0).ccCounter ∧
        ∀ k2, k2 < c0.ccCounter →
          alist_find k2 (f c0).connected_components = none ∨
          alist_find k2 (f c0).connected_components =
            alist_find k2 c0.connected_components)) := by
  cases op with
  | createContext flags =>
      by_cases hf : flags &&& contextFlagsAll = flags
      · exact Or.inr (Or.inl ⟨{ flags := flags },
          by simp [stepOp, runOp, create_context_impl, hf], rfl⟩)
      · exact Or.inl (by simp [stepOp, runOp, create_context_impl, hf])
  | releaseContext k =>
      cases hc : alist_find k r.g_contexts with
      | none => exact Or.inl (by simp [stepOp, runOp, release_context_impl, hc])
      | some ctx =>
          exact Or.inr (Or.inr (Or.inl ⟨k,
            by simp [stepOp, runOp, release_context_impl, hc]⟩))
  | setDebugCallback k cb up =>
      cases hc : alist_find k r.g_contexts with
      | none =>
          exact Or.inl (by simp [stepOp, runOp, debug_message_callback_impl, hc])
      | some ctx =>
          exact Or.inr (Or.inr (Or.inr ⟨k,
            (fun c => { c with debugCallback := cb,
                               debugCallbackUserParam := up }),
            by simp [stepOp, runOp, debug_message_callback_impl, hc],
            fun c0 hw k2 cc hf2 => hw k2 cc hf2,
            fun c0 => ⟨Nat.le_refl _, fun k2 _ => Or.inr rfl⟩⟩))
  | setDebugControl k s t sev e =>
      cases hc : alist_find k r.g_contexts with
      | none =>
          exact Or.inl (by simp [stepOp, runOp, debug_message_control_impl, hc])
      | some ctx =>
          exact Or.inr (Or.inr (Or.inr ⟨k,
            (fun c => { c with
                debugSource := setMaskBits c.debugSource s e,
                debugType := setMaskBits c.debugType t e,
                debugSeverity := setMaskBits c.debugSeverity sev e }),
            by simp [stepOp, runOp, debug_message_control_impl, hc],
            fun c0 hw k2 cc hf2 => hw k2 cc hf2,
            fun c0 => ⟨Nat.le_refl _, fun k2 _ => Or.inr rfl⟩⟩))
  | dispatch k flags src cut =>
      cases hc : alist_find k r.g_contexts with
      | none => exact Or.inl (by simp [stepOp, runOp, dispatch_impl, hc])
      | some ctx =>
          by_cases hm : (mesh_desc_ok src && mesh_desc_ok cut) = true
          · cases hk : kernel src cut flags with
            | error e =>
                exact Or.inl (by simp [stepOp, runOp, dispatch_impl, hc, hm, hk])
            | ok out =>
                exact Or.inr (Or.inr (Or.inr ⟨k,
                  (fun c => { c with
                      dispatchFlags := flags,
                      connected_components := insert_ccs c.ccCounter out,
                      ccCounter := c.ccCounter + out.length }),
                  by simp [stepOp, runOp, dispatch_impl, hc, hm, hk],
                  fun c0 _ k2 cc hf2 => insert_ccs_find_bound out c0.ccCounter k2 cc hf2,
                  fun c0 => ⟨Nat.le_add_right _ _,
                    fun k2 hk2 => Or.inl (insert_ccs_find_none out c0.ccCounter k2 hk2)⟩⟩))
          · exact Or.inl (by simp [stepOp, runOp, dispatch_impl, hc, hm])
  | getComponents h2 tf n pc nc =>
      exact Or.inl (by
        simp only [stepOp, runOp]
        exact get_components_registry_ro r h2 tf n pc nc)
  | getData h2 c f b pm pn =>
      exact Or.inl (by
        simp only [stepOp, runOp]
        exact get_data_registry_ro r h2 c f b pm pn)
  | releaseComponents k ccs2 =>
      cases hc : alist_find k r.g_contexts with
      | none =>
          exact Or.inl
            (by simp [stepOp, runOp, release_connected_components_impl, hc])
      | some ctx =>
          by_cases hall : (ccs2.all
              (fun c => (alist_find c ctx.connected_components).isSome)) = true
          · refine Or.inr (Or.inr (Or.inr ⟨k,
              (fun c => { c with connected_components :=
                  (c.connected_components.filter
                    (fun p => !(ccs2.contains p.1))) }),
              by
                simp only [stepOp, runOp, release_connected_components_impl, hc]
                rw [if_pos hall], ?_, ?_⟩))
            · intro c0 hw k2 cc hf2
              dsimp only at hf2
              rw [alist_find_filter_contains] at hf2
              by_cases hcon : ccs2.contains k2
              · rw [if_pos hcon] at hf2
                cases hf2
              · rw [if_neg hcon] at hf2
                exact hw k2 cc hf2
            · intro c0
              refine ⟨Nat.le_refl _, fun k2 _ => ?_⟩
              dsimp only
              rw [alist_find_filter_contains]
              by_cases hcon : ccs2.contains k2
              · rw [if_pos hcon]
                exact Or.inl rfl
              · rw [if_neg hcon]
                exact Or.inr rfl
          · exact Or.inl (by
              simp only [stepOp, runOp, release_connected_components_impl, hc]
              rw [if_neg hall])

theorem stepOp_nextHandle_mono (kernel : kernel_t) (op : ApiOp) (r : Registry) :
    r.nextHandle ≤ (stepOp kernel op r).nextHandle := by
  rcases stepOp_shape kernel op r with hs | ⟨ctx, hs, _⟩ | ⟨k, hs⟩ | ⟨k, f, hs, _, _⟩ <;>
    rw [hs] <;> dsimp only <;> omega

theorem handleDead_step (kernel : kernel_t) (op : ApiOp) (r : Registry)
    (h : McContext) (hd : handleDead r h) : handleDead (stepOp kernel op r) h := by
  obtain ⟨hfind, hlt⟩ := hd
  rcases stepOp_shape kernel op r with hs | ⟨ctx, hs, _⟩ | ⟨k, hs⟩ | ⟨k, f, hs, _, _⟩ <;>
    rw [hs]
  · exact ⟨hfind, hlt⟩
  · refine ⟨?_, Nat.lt_succ_of_lt hlt⟩
    have hne : ¬ r.nextHandle = h := fun he => Nat.lt_irrefl h (he ▸ hlt)
    dsimp only
    rw [alist_find_cons, if_neg hne, hfind]
  · refine ⟨?_, hlt⟩
    dsimp only
    rw [alist_find_erase]
    by_cases he : k = h
    · rw [if_pos he]
    · rw [if_neg he, hfind]
  · refine ⟨?_, hlt⟩
    dsimp only
    rw [alist_find_update]
    by_cases he : k = h
    · rw [if_pos he, hfind]
      rfl
    · rw [if_neg he, hfind]

theorem handleDead_runOps (kernel : kernel_t) (ops : List ApiOp) :
    ∀ (r : Registry) (h : McContext), handleDead r h →
      handleDead (runOps kernel ops r) h := by
  induction ops with
  | nil => intro r h hd; exact hd
  | cons op ops ih =>
      intro r h hd
      exact ih (stepOp kernel op r) h (handleDead_step kernel op r h hd)

theorem op_on_dead_handle (kernel : kernel_t) (op : ApiOp) (r : Registry)
    (h : McContext) (hfind : alist_find h r.g_contexts = none)
    (htgt : op.target = some h) : (runOp kernel op r).1 = .InvalidHandle := by
  cases op with
  | createContext flags => simp [ApiOp.target] at htgt
  | releaseContext k =>
      simp only [ApiOp.target, Option.some.injEq] at htgt
      subst htgt
      simp [runOp, release_context_impl, hfind]
  | setDebugCallback k cb up =>
      simp only [ApiOp.target, Option.some.injEq] at htgt
      subst htgt
      simp [runOp, debug_message_callback_impl, hfind]
  | setDebugControl k s t sev e =>
      simp only [ApiOp.target, Option.some.injEq] at htgt
      subst htgt
      simp [runOp, debug_message_control_impl, hfind]
  | dispatch k flags src cut =>
      simp only [ApiOp.target, Option.some.injEq] at htgt
      subst htgt
      simp [runOp, dispatch_impl, hfind]
  | getComponents k tf n pc nc =>
      simp only [ApiOp.target, Option.some.injEq] at htgt
      subst htgt
      simp [runOp, get_connected_components_impl, hfind]
  | getData k c f b pm pn =>
      simp only [ApiOp.target, Option.some.injEq] at htgt
      subst htgt
      simp [runOp, get_connected_component_data_impl, hfind]
  | releaseComponents k ccs2 =>
      simp only [ApiOp.target, Option.some.injEq] at htgt
      subst htgt
      simp [runOp, release_connected_components_impl, hfind]

theorem RegWF_step (kernel : kernel_t) (op : ApiOp) (r : Registry)
    (hwf : RegWF r) : RegWF (stepOp kernel op r) := by
  rcases stepOp_shape kernel op r with hs | ⟨ctx, hs, _⟩ | ⟨k, hs⟩ | ⟨k, f, hs, _, _⟩ <;>
    rw [hs]
  · exact hwf
  · intro h2 ctx2 hfind
    dsimp only at hfind ⊢
    rw [alist_find_cons] at hfind
    by_cases he : r.nextHandle = h2
    · omega
    · rw [if_neg he] at hfind
      exact Nat.lt_succ_of_lt (hwf h2 ctx2 hfind)
  · intro h2 ctx2 hfind
    dsimp only at hfind ⊢
    rw [alist_find_erase] at hfind
    by_cases he : k = h2
    · rw [if_pos he] at hfind
      cases hfind
    · rw [if_neg he] at hfind
      exact hwf h2 ctx2 hfind
  · intro h2 ctx2 hfind
    dsimp only at hfind ⊢
    rw [alist_find_update] at hfind
    by_cases he : k = h2
    · rw [if_pos he] at hfind
      cases hf0 : alist_find h2 r.g_contexts with
      | none => rw [hf0] at hfind; cases hfind
      | some c0 => exact hwf h2 c0 hf0
    · rw [if_neg he] at hfind
      exact hwf h2 ctx2 hfind

theorem RegInv_step (kernel : kernel_t) (op : ApiOp) (r : Registry)
    (hinv : RegInv r) : RegInv (stepOp kernel op r) := by
  rcases stepOp_shape kernel op r with
      hs | ⟨ctx, hs, hemp⟩ | ⟨k, hs⟩ | ⟨k, f, hs, hwfp, _⟩ <;> rw [hs]
  · exact hinv
  · intro h2 ctx2 hfind
    dsimp only at hfind
    rw [alist_find_cons] at hfind
    by_cases he : r.nextHandle = h2
    · rw [if_pos he] at hfind
      injection hfind with hectx
      subst hectx
      intro k2 cc hf2
      rw [hemp, alist_find_nil] at hf2
      cases hf2
    · rw [if_neg he] at hfind
      exact hinv h2 ctx2 hfind
  · intro h2 ctx2 hfind
    dsimp only at hfind
    rw [alist_find_erase] at hfind
    by_cases he : k = h2
    · rw [if_pos he] at hfind
      cases hfind
    · rw [if_neg he] at hfind
      exact hinv h2 ctx2 hfind
  · intro h2 ctx2 hfind
    dsimp only at hfind
    rw [alist_find_update] at hfind
    by_cases he : k = h2
    · rw [if_pos he] at hfind
      cases hf0 : alist_find h2 r.g_contexts with
      | none => rw [hf0] at hfind; cases hfind
      | some c0 =>
          rw [hf0] at hfind
          injection hfind with hectx
          subst hectx
          exact hwfp c0 (hinv h2 c0 hf0)
    · rw [if_neg he] at hfind
      exact hinv h2 ctx2 hfind

theorem GoodReg_step (kernel : kernel_t) (op : ApiOp) (r : Registry)
    (hg : GoodReg r) : GoodReg (stepOp kernel op r) :=
  ⟨RegWF_step kernel op r hg.1, RegInv_step kernel op r hg.2⟩

theorem GoodReg_runOps (kernel : kernel_t) (ops : List ApiOp) :
    ∀ r, GoodReg r → GoodReg (runOps kernel ops r) := by
  induction ops with
  | nil => intro r hg; exact hg
  | cons op ops ih =>
      intro r hg
      exact ih (stepOp kernel op r) (GoodReg_step kernel op r hg)

theorem GoodReg_init : GoodReg Registry.init := by
  constructor
  · intro h ctx hfind
    simp [Registry.init, alist_find_nil] at hfind
  · intro h ctx hfind
    simp [Registry.init, alist_find_nil] at hfind

theorem stepOp_live_context (kernel : kernel_t) (op : ApiOp) (r : Registry)
    (h : McContext) (ctx : context_t) (hwf : RegWF r)
    (hfind : alist_find h r.g_contexts = some ctx) :
    alist_find h (stepOp kernel op r).g_contexts = none ∨
    ∃ ctx2, alist_find h (stepOp kernel op r).g_contexts = some ctx2 ∧
      ctx.ccCounter ≤ ctx2.ccCounter ∧
      ∀ k2, k2 < ctx.ccCounter →
        alist_find k2 ctx2.connected_components = none ∨
        alist_find k2 ctx2.connected_components =
          alist_find k2 ctx.connected_components := by
  rcases stepOp_shape kernel op r with
      hs | ⟨ctx0, hs, _⟩ | ⟨k, hs⟩ | ⟨k, f, hs, _, hevo⟩ <;> rw [hs]
  · exact Or.inr ⟨ctx, hfind, Nat.le_refl _, fun k2 _ => Or.inr rfl⟩
  · have hne : ¬ r.nextHandle = h := fun he =>
      Nat.lt_irrefl h (he ▸ hwf h ctx hfind)
    refine Or.inr ⟨ctx, ?_, Nat.le_refl _, fun k2 _ => Or.inr rfl⟩
    dsimp only
    rw [alist_find_cons, if_neg hne, hfind]
  · dsimp only
    rw [alist_find_erase]
    by_cases he : k = h
    · rw [if_pos he]
      exact Or.inl rfl
    · rw [if_neg he]
      exact Or.inr ⟨ctx, hfind, Nat.le_refl _, fun k2 _ => Or.inr rfl⟩
  · dsimp only
    rw [alist_find_update]
    by_cases he : k = h
    · rw [if_pos he, hfind]
      exact Or.inr ⟨f ctx, rfl, (hevo ctx).1, fun k2 hk2 => (hevo ctx).2 k2 hk2⟩
    · rw [if_neg he]
      exact Or.inr ⟨ctx, hfind, Nat.le_refl _, fun k2 _ => Or.inr rfl⟩

theorem ccDead_step (kernel : kernel_t) (op : ApiOp) (r : Registry)
    (h c : Nat) (hg : GoodReg r) (hd : ccDead r h c) :
    ccDead (stepOp kernel op r) h c := by
  rcases hd with hdead | ⟨ctx, hfind, hnone, hlt⟩
  · exact Or.inl (handleDead_step kernel op r h hdead)
  · rcases stepOp_live_context kernel op r h ctx hg.1 hfind with
        hgone | ⟨ctx2, hf2, hcnt, hkeys⟩
    · exact Or.inl ⟨hgone,
        Nat.lt_of_lt_of_le (hg.1 h ctx hfind) (stepOp_nextHandle_mono kernel op r)⟩
    · refine Or.inr ⟨ctx2, hf2, ?_, Nat.lt_of_lt_of_le hlt hcnt⟩
      rcases hkeys c hlt with hk | hk
      · exact hk
      · rw [hk, hnone]

theorem ccDead_runOps (kernel : kernel_t) (ops : List ApiOp) :
    ∀ (r : Registry) (h c : Nat), GoodReg r → ccDead r h c →
      ccDead (runOps kernel ops r) h c := by
  induction ops with
  | nil => intro r h c _ hd; exact hd
  | cons op ops ih =>
      intro r h c hg hd
      exact ih (stepOp kernel op r) h c (GoodReg_step kernel op r hg)
        (ccDead_step kernel op r h c hg hd)

theorem cc_preserved_step (kernel : kernel_t) (op : ApiOp) (r : Registry)
    (hg : GoodReg r) (h c : Nat) (ctx ctx2 : context_t)
    (cc cc2 : connected_component_t)
    (hb1 : alist_find h r.g_contexts = some ctx)
    (hb2 : alist_find c ctx.connected_components = some cc)
    (ha1 : alist_find h (stepOp kernel op r).g_contexts = some ctx2)
    (ha2 : alist_find c ctx2.connected_components = some cc2) :
    cc2 = cc := by
  have hclt : c < ctx.ccCounter := hg.2 h ctx hb1 c cc hb2
  rcases stepOp_live_context kernel op r h ctx hg.1 hb1 with
      hgone | ⟨ctx3, hf3, _, hkeys⟩
  · rw [hgone] at ha1
    cases ha1
  · rw [hf3] at ha1
    injection ha1 with he
    subst he
    rcases hkeys c hclt with hk | hk
    · rw [hk] at ha2
      cases ha2
    · rw [hk, hb2] at ha2
      injection ha2 with he2
      exact he2.symm

/-- Claim C5: context handles are fresh and never reused while live.  For
every operation sequence from the initial (empty) registry: (1) whenever
`create_context_impl` hands out a handle, that handle differs from every
currently live handle; (2) once a handle is not live (it was released, or
was issued and then released — formally, it is unknown and below the
freshness counter), every further operation sequence keeps it unknown and
every operation invoked on it fails with `InvalidHandle`. -/
theorem C5_context_handle_freshness (kernel : kernel_t) (ops : List ApiOp) :
    (∀ flags hNew,
      (create_context_impl (runOps kernel ops Registry.init) flags none).2.2 =
          some hNew →
        alist_find hNew (runOps kernel ops Registry.init).g_contexts = none) ∧
    (∀ h, alist_find h (runOps kernel ops Registry.init).g_contexts = none →
      h < (runOps kernel ops Registry.init).nextHandle →
      ∀ (ops2 : List ApiOp) (op : ApiOp), op.target = some h →
        (runOp kernel op (runOps kernel ops2
            (runOps kernel ops Registry.init))).1 = .InvalidHandle) := by
  have hwf : RegWF (runOps kernel ops Registry.init) :=
    (GoodReg_runOps kernel ops Registry.init GoodReg_init).1
  constructor
  · intro flags hNew hsome
    by_cases hf : flags &&& contextFlagsAll = flags
    · have hres : create_context_impl (runOps kernel ops Registry.init)
          flags none =
          (.Success,
           { g_contexts := ((runOps kernel ops Registry.init).nextHandle,
               { flags := flags }) ::
               (runOps kernel ops Registry.init).g_contexts,
             nextHandle := (runOps kernel ops Registry.init).nextHandle + 1 },
           some (runOps kernel ops Registry.init).nextHandle) := by
        unfold create_context_impl
        rw [if_pos hf]
      rw [hres] at hsome
      dsimp only at hsome
      injection hsome with hEq
      subst hEq
      cases hfind : alist_find ((runOps kernel ops Registry.init).nextHandle)
          (runOps kernel ops Registry.init).g_contexts with
      | none => rfl
      | some ctx => exact absurd (hwf _ ctx hfind) (Nat.lt_irrefl _)
    · simp [create_context_impl, hf] at hsome
  · intro h hdead hlt ops2 op htgt
    have hd2 : handleDead (runOps kernel ops2
        (runOps kernel ops Registry.init)) h :=
      handleDead_runOps kernel ops2 (runOps kernel ops Registry.init) h
        ⟨hdead, hlt⟩
    exact op_on_dead_handle kernel op _ h hd2.1 htgt

/-- Witness for C5: create one context (it gets handle 1), release it; the
handle is no longer live and sits below the freshness counter, and a
further `release_context` on it fails with `InvalidHandle`. -/
theorem C5_context_handle_freshness_witness :
    (alist_find 1 (runOps kernelNone
        [ApiOp.createContext 0, ApiOp.releaseContext 1]
        Registry.init).g_contexts = none) ∧
    (1 < (runOps kernelNone [ApiOp.createContext 0, ApiOp.releaseContext 1]
        Registry.init).nextHandle) ∧
    (runOp kernelNone (ApiOp.releaseContext 1)
        (runOps kernelNone []
          (runOps kernelNone [ApiOp.createContext 0, ApiOp.releaseContext 1]
            Registry.init))).1 = .InvalidHandle :=
  ⟨by decide, by decide,
   (C5_context_handle_freshness kernelNone
       [ApiOp.createContext 0, ApiOp.releaseContext 1]).2 1 (by decide)
     (by decide) [] (ApiOp.releaseContext 1) rfl⟩

theorem sampleReg_good : GoodReg sampleReg := by
  constructor
  · intro h ctx hf
    by_cases he : (1 : Nat) = h
    · subst he
      decide
    · rw [show sampleReg.g_contexts = [(1, sampleCtx)] from rfl] at hf
      rw [alist_find_cons, if_neg he, alist_find_nil] at hf
      cases hf
  · intro h ctx hf k cc hfk
    by_cases he : (1 : Nat) = h
    · subst he
      rw [show sampleReg.g_contexts = [(1, sampleCtx)] from rfl] at hf
      rw [alist_find_cons, if_pos rfl] at hf
      injection hf with hectx
      subst hectx
      by_cases h0 : (0 : Nat) = k
      · subst h0
        decide
      · by_cases h1 : (1 : Nat) = k
        · subst h1
          decide
        · rw [show sampleCtx.connected_components =
              [(0, sampleCC), (1, sampleCC2)] from rfl] at hfk
          rw [alist_find_cons, if_neg h0, alist_find_cons, if_neg h1,
            alist_find_nil] at hfk
          cases hfk
    · rw [show sampleReg.g_contexts = [(1, sampleCtx)] from rfl] at hf
      rw [alist_find_cons, if_neg he, alist_find_nil] at hf
      cases hf

/-- Claim C7: a connected component's type tag (Fragment | Patch | Seam |
Input) and its type-specific metadata (both carried by `kind`; `type` is
computed from it) are fixed at creation: over any sequence of operations on
a well-formed registry, as long as the component handle still denotes a
component of its owning context, the stored component is exactly the
original — no operation mutates a stored component; an operation either
leaves it intact or destroys it. -/
theorem C7_component_metadata_immutable (kernel : kernel_t) (ops : List ApiOp)
    (r : Registry) (hg : GoodReg r) (h : McContext) (c : McConnectedComponent)
    (ctx ctx2 : context_t) (cc cc2 : connected_component_t)
    (hb1 : alist_find h r.g_contexts = some ctx)
    (hb2 : alist_find c ctx.connected_components = some cc)
    (ha1 : alist_find h (runOps kernel ops r).g_contexts = some ctx2)
    (ha2 : alist_find c ctx2.connected_components = some cc2) :
    cc2 = cc ∧ cc2.type = cc.type ∧ cc2.kind = cc.kind := by
  suffices hmain : cc2 = cc by
    exact ⟨hmain, by rw [hmain], by rw [hmain]⟩
  induction ops generalizing r ctx cc with
  | nil =>
      rw [runOps] at ha1
      rw [hb1] at ha1
      injection ha1 with he
      subst he
      rw [hb2] at ha2
      injection ha2 with he2
      exact he2.symm
  | cons op ops ih =>
      rw [runOps] at ha1
      cases hm1 : alist_find h (stepOp kernel op r).g_contexts with
      | none =>
          have hdeadm : handleDead (stepOp kernel op r) h :=
            ⟨hm1, Nat.lt_of_lt_of_le (hg.1 h ctx hb1)
              (stepOp_nextHandle_mono kernel op r)⟩
          have hd2 : ccDead (runOps kernel ops (stepOp kernel op r)) h c :=
            ccDead_runOps kernel ops (stepOp kernel op r) h c
              (GoodReg_step kernel op r hg) (Or.inl hdeadm)
          rcases hd2 with ⟨hnone2, _⟩ | ⟨ctxx, hfx, hnx, _⟩
          · rw [hnone2] at ha1
            cases ha1
          · rw [hfx] at ha1
            injection ha1 with he
            subst he
            rw [hnx] at ha2
            cases ha2
      | some ctxMid =>
          cases hm2 : alist_find c ctxMid.connected_components with
          | none =>
              have hclt : c < ctx.ccCounter := hg.2 h ctx hb1 c cc hb2
              have hcnt2 : c < ctxMid.ccCounter := by
                rcases stepOp_live_context kernel op r h ctx hg.1 hb1 with
                    hgone | ⟨ctx3, hf3, hcnt, _⟩
                · rw [hgone] at hm1
                  cases hm1
                · rw [hf3] at hm1
                  injection hm1 with he
                  subst he
                  exact Nat.lt_of_lt_of_le hclt hcnt
              have hd2 : ccDead (runOps kernel ops (stepOp kernel op r)) h c :=
                ccDead_runOps kernel ops (stepOp kernel op r) h c
                  (GoodReg_step kernel op r hg)
                  (Or.inr ⟨ctxMid, hm1, hm2, hcnt2⟩)
              rcases hd2 with ⟨hnone2, _⟩ | ⟨ctxx, hfx, hnx, _⟩
              · rw [hnone2] at ha1
                cases ha1
              · rw [hfx] at ha1
                injection ha1 with he
                subst he
                rw [hnx] at ha2
                cases ha2
          | some ccMid =>
              have hccmid : ccMid = cc := cc_preserved_step kernel op r hg h c
                ctx ctxMid cc ccMid hb1 hb2 hm1 hm2
              have hrec : cc2 = ccMid := ih (stepOp kernel op r)
                (GoodReg_step kernel op r hg) ctxMid ccMid hm1 hm2 ha1
              exact hrec.trans hccmid

/-- Witness for C7: on `sampleReg`, releasing the component batch `[1]`
leaves component 0 of context 1 exactly as it was created. -/
theorem C7_component_metadata_immutable_witness :
    (alist_find 1 sampleReg.g_contexts = some sampleCtx) ∧
    (alist_find 0 sampleCtx.connected_components = some sampleCC) ∧
    (alist_find 1 (runOps kernelNone [ApiOp.releaseComponents 1 [1]]
        sampleReg).g_contexts = some ctxAfterRelease) ∧
    (alist_find 0 ctxAfterRelease.connected_components = some sampleCC) ∧
    (sampleCC = sampleCC ∧ sampleCC.type = sampleCC.type ∧
      sampleCC.kind = sampleCC.kind) :=
  ⟨by decide, by decide, by decide, by decide,
   C7_component_metadata_immutable kernelNone [ApiOp.releaseComponents 1 [1]]
     sampleReg sampleReg_good 1 0 sampleCtx ctxAfterRelease sampleCC sampleCC
     (by decide) (by decide) (by decide) (by decide)⟩
